import Mathlib

/-
Verification of the SSH outbound proxy client (proxy/ssh/client.go).

The Go source is shallowly embedded below: each Lean definition mirrors the
corresponding Go function or method.  External collaborators (the x/crypto
ssh library parsers, the injected dialer, the copy tasks) are passed in as
explicit parameters; repository packages that are referenced but whose code
is not part of the embedded source (common/retry, common/signal, common/task)
are modelled from the specification and marked as such in their doc comments.
-/

namespace SSHProxy

/-- A Go error value as produced by `newError(msg).Base(...)`: its own
message together with the messages of the chain of wrapped base errors. -/
structure GoErr where
  msg : String
  baseChain : List String
deriving DecidableEq, Repr

/-- Build `newError(msg)` with no base error. -/
def GoErr.plain (m : String) : GoErr := ⟨m, []⟩

/-- Build `newError(msg).Base(e)`: wrap an existing error. -/
def GoErr.wrap (m : String) (e : GoErr) : GoErr := ⟨m, e.msg :: e.baseChain⟩

/-! ### Base64 (encoding/base64 StdEncoding), used by the host key callback -/

/-- The standard base64 alphabet. -/
def base64Alphabet : List Char :=
  "ABCDEFGHIJKLMNOPQRSTUVWXYZabcdefghijklmnopqrstuvwxyz0123456789+/".toList

/-- The base64 digit for a 6-bit value. -/
def b64c (n : Nat) : Char := base64Alphabet.getD n 'A'

/-- Encoding `base64.StdEncoding.EncodeToString` on a byte list (standard base64 with
padding). -/
def base64StdEncode : List Nat → String
  | [] => ""
  | [a] =>
      String.mk [b64c (a / 4 % 64), b64c (a % 4 * 16), '=', '=']
  | [a, b] =>
      String.mk [b64c (a / 4 % 64), b64c (a % 4 * 16 + b / 16 % 16),
                 b64c (b % 16 * 4), '=']
  | a :: b :: c :: rest =>
      String.mk [b64c (a / 4 % 64), b64c (a % 4 * 16 + b / 16 % 16),
                 b64c (b % 16 * 4 + c / 64 % 4), b64c (c % 64)]
        ++ base64StdEncode rest

/-! ### Host keys and the host key callback (client.go lines 90-104) -/

/-- An ssh public key as the client sees it: its algorithm name (`Type()`)
and its canonical wire encoding (`Marshal()`), a byte list. -/
structure SSHPublicKey where
  keyType : String
  marshal : List Nat
deriving DecidableEq, Repr

/-- The error message built at client.go line 97 for a host key that matches
no allow-listed key. -/
def hostKeyMismatchMsg (key : SSHPublicKey) : String :=
  "ssh: host key mismatch, server send " ++ key.keyType ++ " "
    ++ base64StdEncode key.marshal

/-- The informational record written at client.go line 101 when no
allow-list is configured. -/
def hostKeyInfoMsg (key : SSHPublicKey) : String :=
  "ssh: server send " ++ key.keyType ++ " "
    ++ base64StdEncode key.marshal

/-- The strict host key callback (client.go lines 91-98): walk the
allow-list, accept on the first key whose `Marshal()` is byte-equal to the
presented key, otherwise return the mismatch error. -/
def strictHostKeyCallback (keys : List SSHPublicKey) (key : SSHPublicKey) :
    Option GoErr :=
  match keys with
  | [] => some (GoErr.plain (hostKeyMismatchMsg key))
  | pk :: rest =>
      if key.marshal = pk.marshal then none
      else strictHostKeyCallback rest key

/-- Which of the two host key callbacks Init installed (client.go line 90:
strict when the parsed key list is non-nil, permissive otherwise). -/
inductive HostKeyMode where
  | strict (keys : List SSHPublicKey)
  | permissive
deriving DecidableEq, Repr

/-- Run the installed host key callback on a presented key.  The result is
the returned error (none means accept) together with the informational log
records emitted (client.go lines 91-104). -/
def runHostKeyCallback (mode : HostKeyMode) (key : SSHPublicKey) :
    Option GoErr × List String :=
  match mode with
  | .strict keys => (strictHostKeyCallback keys key, [])
  | .permissive => (none, [hostKeyInfoMsg key])

/-! ### Configuration, session policy and Init (client.go lines 46-106) -/

/-- The session policy timeouts used by Process (features/policy):
connection-idle, downlink-only and uplink-only, in milliseconds. -/
structure SessionTimeouts where
  connectionIdle : Nat
  downlinkOnly : Nat
  uplinkOnly : Nat
deriving DecidableEq, Repr

/-- The configuration fields of the ssh outbound (config.pb.go) that Init
reads: user, address, port, private key text, password, newline-separated
allow-listed public keys, and the policy level selector. -/
structure Config where
  user : String
  address : String
  port : Nat
  privateKey : String
  password : String
  publicKey : String
  userLevel : Nat
deriving DecidableEq, Repr

/-- An authentication method as installed into `c.auth` (client.go lines
69 and 71): public-key auth with a parsed signer, or password auth. -/
inductive AuthMethod where
  | publicKeys (signer : Nat)
  | password (pw : String)
deriving DecidableEq, Repr

/-- The external x/crypto ssh library parsers used by Init, treated as
injected collaborators: `ssh.ParsePrivateKey`,
`ssh.ParsePrivateKeyWithPassphrase` (success yields an opaque signer id)
and `ssh.ParseAuthorizedKey` (success yields the parsed public key). -/
structure SSHLib where
  parsePrivateKey : String → Option Nat
  parsePrivateKeyWithPassphrase : String → String → Option Nat
  parseAuthorizedKey : String → Option SSHPublicKey

/-- The state of the Client component after Init: the fields of the Go
`Client` struct, with `client` the shared ssh transport reference (an
opaque transport id) and `locked` the state of the embedded mutex. -/
structure Client where
  sessionPolicy : SessionTimeouts
  serverAddress : String
  serverPort : Nat
  username : String
  auth : List AuthMethod
  hostKeyMode : HostKeyMode
  client : Option Nat
  locked : Bool
deriving DecidableEq, Repr

/-- A whitespace character as trimmed by `strings.TrimSpace`. -/
def isSpaceChar (c : Char) : Bool :=
  c = ' ' || c = '\t' || c = '\n' || c = '\r' || c = '\x0b' || c = '\x0c'

/-- Model of `strings.TrimSpace`: drop leading and trailing whitespace. -/
def trimSpace (s : String) : String :=
  String.mk
    (((s.toList.dropWhile isSpaceChar).reverse.dropWhile
      isSpaceChar).reverse)

/-- Split a character list on newline separators, as
`strings.Split(s, "\n")` does (the empty input yields one empty field). -/
def splitOnNewline : List Char → List (List Char)
  | [] => [[]]
  | c :: rest =>
      match splitOnNewline rest with
      | [] => [[]]
      | grp :: groups =>
          if c = '\n' then [] :: grp :: groups
          else (c :: grp) :: groups

/-- Model of `strings.Split(s, "\n")` on a string. -/
def splitLines (s : String) : List String :=
  (splitOnNewline s.toList).map String.mk

/-- The allow-list parsing loop of Init (client.go lines 76-88): split on
newlines, skip blank lines, parse each remaining line as an
authorized-key, failing with the parse-public-key error on the first line
the library rejects. -/
def parsePublicKeyLines (lib : SSHLib) : List String →
    Except GoErr (List SSHPublicKey)
  | [] => .ok []
  | str :: rest =>
      let s := trimSpace str
      if s = "" then parsePublicKeyLines lib rest
      else
        match lib.parseAuthorizedKey s with
        | none => .error (GoErr.plain "parse public key")
        | some key =>
            match parsePublicKeyLines lib rest with
            | .error e => .error e
            | .ok keys => .ok (key :: keys)

/-- The authentication-method selection of Init (client.go lines 58-72):
when a private key is present, parse it — with the password value as
passphrase when a password is also present — and fail on a parse error;
otherwise use password authentication when a password is present;
otherwise leave the method set empty. -/
def initAuthMethods (lib : SSHLib) (config : Config) :
    Except GoErr (List AuthMethod) :=
  if config.privateKey ≠ "" then
    match (if config.password = "" then
             lib.parsePrivateKey config.privateKey
           else
             lib.parsePrivateKeyWithPassphrase config.privateKey
               config.password) with
    | none => .error (GoErr.plain "parse private key")
    | some signer => .ok [AuthMethod.publicKeys signer]
  else if config.password ≠ "" then
    .ok [AuthMethod.password config.password]
  else
    .ok []

/-- The allow-list handling of Init (client.go lines 74-89): when the
public-key field is non-empty, split it on newlines and parse the
non-blank lines; otherwise the key list stays nil. -/
def initHostKeys (lib : SSHLib) (config : Config) :
    Except GoErr (List SSHPublicKey) :=
  if config.publicKey ≠ "" then
    parsePublicKeyLines lib (splitLines config.publicKey)
  else
    .ok []

/-- Method `Client.Init` (client.go lines 46-106): resolve the session policy,
the server destination and the username (default root), select the
authentication methods from the private key and password fields, parse the
allow-listed public keys, and install the strict host key callback when
the parsed key list is non-nil, the permissive one otherwise. -/
def Client.Init (lib : SSHLib) (config : Config)
    (policyForLevel : Nat → SessionTimeouts) : Except GoErr Client :=
  match initAuthMethods lib config with
  | .error e => .error e
  | .ok auth =>
      match initHostKeys lib config with
      | .error e => .error e
      | .ok keys =>
          .ok { sessionPolicy := policyForLevel config.userLevel
                serverAddress := config.address
                serverPort := config.port
                username := if config.user = "" then "root" else config.user
                auth := auth
                hostKeyMode :=
                  if keys.isEmpty then HostKeyMode.permissive
                  else HostKeyMode.strict keys
                client := none
                locked := false }

/-! ### Retry with backoff (common/retry, modelled from the spec) -/

/-- The outcome of running a retry strategy: attempts actually performed,
the delays slept between attempts, and whether an attempt succeeded. -/
structure RetryOutcome where
  attempts : Nat
  delays : List Nat
  ok : Bool
deriving DecidableEq, Repr

/-- Modelled from the spec: the body of the retry combinator from
`common/retry`, whose code is not part of the embedded source.  Per the
spec it performs up to `fuel` attempts of `op` (attempt indices counting
up from `start`), sleeping `delay` between attempts and doubling the delay
after each retry, stopping at the first success. -/
def retryRun (op : Nat → Bool) : Nat → Nat → Nat → RetryOutcome
  | _, _, 0 => ⟨0, [], false⟩
  | delay, start, fuel + 1 =>
      if op start then ⟨1, [], true⟩
      else if fuel = 0 then ⟨1, [], false⟩
      else
        let r := retryRun op (delay * 2) (start + 1) fuel
        ⟨r.attempts + 1, delay :: r.delays, r.ok⟩

/-- Modelled from the spec: `retry.ExponentialBackoff(retries, base).On(op)`
makes up to `retries` retries (`retries + 1` total attempts) with a base
delay of `base` milliseconds which doubles on each retry. -/
def ExponentialBackoff.On (retries base : Nat) (op : Nat → Bool) :
    RetryOutcome :=
  retryRun op base 0 (retries + 1)

/-! ### Destinations, the dialer and the per-call environment -/

/-- A transport-layer network (common/net). -/
inductive Network where
  | tcp
  | udp
  | unknown
deriving DecidableEq, Repr

/-- A destination (common/net): network, address, port. -/
structure Destination where
  network : Network
  address : String
  port : Nat
deriving DecidableEq, Repr

/-- Predicate `Destination.IsValid` (common/net): the network is known. -/
def Destination.IsValid (d : Destination) : Bool :=
  d.network != Network.unknown

/-- Function `Destination.NetAddr` (common/net): the address-and-port string. -/
def Destination.NetAddr (d : Destination) : String :=
  d.address ++ ":" ++ toString d.port

/-- The outbound session attached to the context, carrying the target
destination. -/
structure OutboundSession where
  target : Destination
deriving DecidableEq, Repr

/-- The externally injected behaviour a single Process call observes: the
outbound session on the context, the dialer (per dial attempt index),
whether the ssh handshake succeeds, whether the channel open on the shared
transport succeeds, and the outcomes of the two copy tasks (none means the
copy ended cleanly at EOF). -/
structure ProcessEnv where
  outbound : Option OutboundSession
  dial : Nat → Bool
  handshakeOk : Bool
  channelOpenOk : Bool
  downlinkErr : Option GoErr
  uplinkErr : Option GoErr

/-- The externally observable I/O effects a Process call performs, in
order. -/
inductive Effect where
  | lockAcquire
  | lockRelease
  | rawDial
  | handshake
  | openChannel (sc : Nat) (addr : String)
  | copyRelay
deriving DecidableEq, Repr

/-- How a Process call ends: a Go return value, or blocked forever on the
component mutex. -/
inductive ProcOutcome where
  | ret (e : Option GoErr)
  | blockedOnLock
deriving DecidableEq, Repr

/-- The result of one Process call: the outcome, the component state it
leaves behind, and the effect trace it performed. -/
structure ProcessResult where
  outcome : ProcOutcome
  state : Client
  trace : List Effect
deriving Repr

/-! ### connect (client.go lines 164-191) -/

/-- The result of `Client.connect`: dial attempts performed, delays slept,
the returned ssh client id or error, the component state left behind, and
the effect trace. -/
structure ConnectResult where
  attempts : Nat
  delays : List Nat
  result : Except GoErr Nat
  state : Client
  trace : List Effect
deriving Repr

/-- Method `Client.connect` (client.go lines 164-191): retry the raw dial through
`retry.ExponentialBackoff(2, 100)`; when the retry budget is exhausted,
fail with the failed-to-connect error; otherwise perform the ssh client
handshake over the raw connection, failing with the failed-to-ssh error;
on success store the new client as the shared instance (line 189). -/
def Client.connect (c : Client) (dial : Nat → Bool) (handshakeOk : Bool) :
    ConnectResult :=
  let r := ExponentialBackoff.On 2 100 dial
  if r.ok = false then
    ⟨r.attempts, r.delays,
      .error (GoErr.plain "failed to connect to destination"), c,
      List.replicate r.attempts Effect.rawDial⟩
  else if handshakeOk = false then
    ⟨r.attempts, r.delays, .error (GoErr.plain "failed to ssh"), c,
      List.replicate r.attempts Effect.rawDial ++ [Effect.handshake]⟩
  else
    ⟨r.attempts, r.delays, .ok 0, { c with client := some 0 },
      List.replicate r.attempts Effect.rawDial ++ [Effect.handshake]⟩

/-! ### The idle timer and the copy tasks (client.go lines 147-160) -/

/-- The per-session idle-activity timer: the inactivity span after which it
cancels the session sub-context. -/
structure IdleTimer where
  timeout : Nat
deriving DecidableEq, Repr

/-- Modelled from the spec: `signal.CancelAfterInactivity` (common/signal,
not part of the embedded source) creates a timer that cancels the session
sub-context once no activity has occurred for the given timeout. -/
def CancelAfterInactivity (timeout : Nat) : IdleTimer := ⟨timeout⟩

/-- Method `SetTimeout` rearms the idle timer to a new inactivity span. -/
def IdleTimer.SetTimeout (_t : IdleTimer) (d : Nat) : IdleTimer := ⟨d⟩

/-- The timer cancels a session that has been idle for `idle`. -/
def IdleTimer.cancelsWhenIdleFor (t : IdleTimer) (idle : Nat) : Prop :=
  t.timeout ≤ idle

/-- The downlink copy task (client.go lines 150-152): copy from the link
reader to the channel writer; when the copy completes, the deferred call
rearms the idle timer to the downlink-only timeout.  `copyResult` is the
outcome of `buf.Copy`, an external collaborator. -/
def downlinkTask (p : SessionTimeouts) (timer : IdleTimer)
    (copyResult : Option GoErr) : Option GoErr × IdleTimer :=
  (copyResult, timer.SetTimeout p.downlinkOnly)

/-- The uplink copy task (client.go lines 153-155): copy from the channel
reader to the link writer; when the copy completes, the deferred call
rearms the idle timer to the uplink-only timeout. -/
def uplinkTask (p : SessionTimeouts) (timer : IdleTimer)
    (copyResult : Option GoErr) : Option GoErr × IdleTimer :=
  (copyResult, timer.SetTimeout p.uplinkOnly)

/-- Modelled from the spec: `task.Run` (common/task, not part of the
embedded source) completes when every task has completed, returning nil
when all ended cleanly and otherwise the first reported error; when both
report one the downlink error is taken as the first here. -/
def taskRunResult (a b : Option GoErr) : Option GoErr :=
  match a with
  | some e => some e
  | none => b

/-! ### Process (client.go lines 108-162) -/

/-- The relay phase of Process (client.go lines 142-161): open the logical
stream channel on the shared transport `sc` via `sc.Dial` (failing with
the failed-to-open error), seed the idle timer with the connection-idle
timeout, run the two copy tasks, and wrap any task error as the
connection-ends error. -/
def Client.relay (c : Client) (destination : Destination)
    (env : ProcessEnv) (sc : Nat) (acc : List Effect) : ProcessResult :=
  if env.channelOpenOk = false then
    ⟨.ret (some (GoErr.plain "failed to open ssh proxy connection")), c,
      acc ++ [Effect.openChannel sc destination.NetAddr]⟩
  else
    let timer := CancelAfterInactivity c.sessionPolicy.connectionIdle
    let d := downlinkTask c.sessionPolicy timer env.downlinkErr
    let u := uplinkTask c.sessionPolicy timer env.uplinkErr
    match taskRunResult d.1 u.1 with
    | some e =>
        ⟨.ret (some (GoErr.wrap "connection ends" e)), c,
          acc ++ [Effect.openChannel sc destination.NetAddr,
                  Effect.copyRelay]⟩
    | none =>
        ⟨.ret none, c,
          acc ++ [Effect.openChannel sc destination.NetAddr,
                  Effect.copyRelay]⟩

/-- Method `Client.Process` (client.go lines 108-162), for a single caller: check
the outbound target, reject non-TCP networks, then the double-checked
acquisition of the shared transport (creating it through `connect` under
the mutex when absent; note that the error return at line 126 happens with
the mutex still held), and finally the relay phase. -/
def Client.Process (c : Client) (env : ProcessEnv) : ProcessResult :=
  match env.outbound with
  | none => ⟨.ret (some (GoErr.plain "target not specified")), c, []⟩
  | some ob =>
    if ob.target.IsValid = false then
      ⟨.ret (some (GoErr.plain "target not specified")), c, []⟩
    else
      let destination := ob.target
      if destination.network ≠ Network.tcp then
        ⟨.ret (some (GoErr.plain "only TCP is supported in SSH proxy")),
          c, []⟩
      else
        match c.client with
        | some sc => Client.relay c destination env sc []
        | none =>
            if c.locked then ⟨.blockedOnLock, c, []⟩
            else
              let c1 : Client := { c with locked := true }
              match c1.client with
              | some sc =>
                  Client.relay { c1 with locked := false } destination env
                    sc [Effect.lockAcquire, Effect.lockRelease]
              | none =>
                  let co := Client.connect c1 env.dial env.handshakeOk
                  match co.result with
                  | .error e =>
                      ⟨.ret (some e), co.state,
                        Effect.lockAcquire :: co.trace⟩
                  | .ok sc =>
                      Client.relay { co.state with locked := false }
                        destination env sc
                        (Effect.lockAcquire :: co.trace
                          ++ [Effect.lockRelease])

/-! ### Close and the background watcher (client.go lines 128-136, 193-199) -/

/-- A fine-grained step of the watcher goroutine or of Close, used to state
which writer clears the shared reference and under which lock. -/
inductive MicroStep where
  | lockAcquire
  | setClientNone
  | lockRelease
  | closeTransport (sc : Nat)
deriving DecidableEq, Repr

/-- Method `Client.Close` (client.go lines 193-199): read the shared reference;
when non-nil, close the underlying ssh client and return its close error,
otherwise no-op success.  The component state (reference and mutex) is not
written. -/
def Client.Close (c : Client) (closeErr : Option GoErr) :
    Option GoErr × Client × List MicroStep :=
  match c.client with
  | some sc => (closeErr, c, [MicroStep.closeTransport sc])
  | none => (none, c, [])

/-- The body of the background watcher goroutine once `client.Wait()` has
returned (client.go lines 128-136): take the component mutex, clear the
shared reference, release the mutex; it waits (none) while another holder
owns the mutex. -/
def clientWatcher (c : Client) : Option (Client × List MicroStep) :=
  if c.locked then none
  else
    some ({ c with client := none },
      [MicroStep.lockAcquire, MicroStep.setClientNone,
       MicroStep.lockRelease])

/-! ### Concurrent transport acquisition (client.go lines 119-140)

An interleaving model of N concurrent Process callers executing the
double-checked acquisition of the shared transport, in the scenario of the
claim: no transport exists initially, the dial-and-handshake sequence
succeeds, and the transport does not die during the acquisitions (so the
watcher never clears the reference).  Each performed dial-and-handshake
sequence creates a fresh transport, numbered by `dials`. -/

/-- The control point of one concurrent Process caller inside the
acquisition block (client.go lines 119-140). -/
inductive ThreadPC where
  | start
  | waitLock
  | recheck
  | connecting
  | unlocking (sc : Nat)
  | done (sc : Nat)
deriving DecidableEq, Repr

/-- The shared state seen by the concurrent callers: the mutex holder, the
shared transport reference, the number of dial-and-handshake sequences
performed so far, and each caller's control point. -/
structure MultiState where
  lock : Option Nat
  client : Option Nat
  dials : Nat
  threads : List ThreadPC
deriving DecidableEq, Repr

/-- The initial state for N concurrent relay requests issued while no
shared transport exists. -/
def initMulti (n : Nat) : MultiState :=
  ⟨none, none, 0, List.replicate n ThreadPC.start⟩

/-- One interleaving step of the acquisition protocol: some caller `i`
executes its next statement of client.go lines 119-140.  `fastPathHit` and
`fastPathMiss` are the lock-free read at line 119; `lockAcquire` is line
121; `recheckHit` and `recheckMiss` are the re-read under the lock at
lines 122-123; `connectDone` is the successful dial-and-handshake of lines
124-137, which stores the fresh transport (line 189); `unlockDone` is line
139 followed by the return of the acquired transport. -/
inductive AcquireStep : MultiState → MultiState → Prop where
  | fastPathHit (s : MultiState) (i v : Nat)
      (ht : s.threads.get? i = some ThreadPC.start)
      (hc : s.client = some v) :
      AcquireStep s { s with threads := s.threads.set i (ThreadPC.done v) }
  | fastPathMiss (s : MultiState) (i : Nat)
      (ht : s.threads.get? i = some ThreadPC.start)
      (hc : s.client = none) :
      AcquireStep s { s with threads := s.threads.set i ThreadPC.waitLock }
  | lockAcquire (s : MultiState) (i : Nat)
      (ht : s.threads.get? i = some ThreadPC.waitLock)
      (hl : s.lock = none) :
      AcquireStep s { s with lock := some i,
                             threads := s.threads.set i ThreadPC.recheck }
  | recheckHit (s : MultiState) (i v : Nat)
      (ht : s.threads.get? i = some ThreadPC.recheck)
      (hl : s.lock = some i) (hc : s.client = some v) :
      AcquireStep s
        { s with threads := s.threads.set i (ThreadPC.unlocking v) }
  | recheckMiss (s : MultiState) (i : Nat)
      (ht : s.threads.get? i = some ThreadPC.recheck)
      (hl : s.lock = some i) (hc : s.client = none) :
      AcquireStep s { s with threads := s.threads.set i ThreadPC.connecting }
  | connectDone (s : MultiState) (i : Nat)
      (ht : s.threads.get? i = some ThreadPC.connecting)
      (hl : s.lock = some i) :
      AcquireStep s
        { s with client := some s.dials, dials := s.dials + 1,
                 threads := s.threads.set i (ThreadPC.unlocking s.dials) }
  | unlockDone (s : MultiState) (i v : Nat)
      (ht : s.threads.get? i = some (ThreadPC.unlocking v))
      (hl : s.lock = some i) :
      AcquireStep s { s with lock := none,
                             threads := s.threads.set i (ThreadPC.done v) }

/-- The per-caller part of the acquisition invariant: a caller past the
lock acquisition holds the mutex; a caller that decided to connect saw no
transport; a caller about to unlock or already done acquired the transport
the shared reference holds. -/
def threadOK (s : MultiState) (i : Nat) : ThreadPC → Prop
  | .start => True
  | .waitLock => True
  | .recheck => s.lock = some i
  | .connecting => s.lock = some i ∧ s.client = none
  | .unlocking v => s.lock = some i ∧ s.client = some v
  | .done v => s.client = some v

/-- The acquisition invariant: the caller count is fixed, at most one
dial-and-handshake sequence has ever been performed (and the shared
reference holds exactly the transport it created), and every caller
satisfies its per-caller condition. -/
def AcquireInv (n : Nat) (s : MultiState) : Prop :=
  s.threads.length = n
  ∧ ((s.client = none ∧ s.dials = 0)
      ∨ (s.client = some 0 ∧ s.dials = 1))
  ∧ ∀ i pc, s.threads.get? i = some pc → threadOK s i pc

/-- A caller has completed its acquisition. -/
def pcIsDone : ThreadPC → Bool
  | .done _ => true
  | _ => false

/-- An index with a thread control point is within the thread list. -/
theorem get?_some_lt {l : List ThreadPC} {i : Nat} {a : ThreadPC}
    (h : l.get? i = some a) : i < l.length :=
  (List.get?_eq_some.mp h).1

/-- A caller whose control point only needs the lock and the client to be
unchanged keeps satisfying its per-caller condition. -/
theorem threadOK_of_unchanged {s s' : MultiState} (hl : s'.lock = s.lock)
    (hc : s'.client = s.client) (i : Nat) (pc : ThreadPC)
    (h : threadOK s i pc) : threadOK s' i pc := by
  cases pc <;> simp_all [threadOK]

/-- The acquisition invariant is preserved by every interleaving step. -/
theorem acquireInv_step {n : Nat} {s s' : MultiState}
    (hinv : AcquireInv n s) (hstep : AcquireStep s s') : AcquireInv n s' := by
  obtain ⟨hlen, hcd, hth⟩ := hinv
  cases hstep with
  | fastPathHit i v ht hc =>
      refine ⟨by simpa using hlen, hcd, ?_⟩
      intro j pc hj
      rcases eq_or_ne j i with hij | hij
      · subst hij
        rw [List.get?_set_eq_of_lt _ (get?_some_lt ht)] at hj
        cases hj
        exact hc
      · rw [List.get?_set_ne _ _ (Ne.symm hij)] at hj
        exact threadOK_of_unchanged rfl rfl j pc (hth j pc hj)
  | fastPathMiss i ht hc =>
      refine ⟨by simpa using hlen, hcd, ?_⟩
      intro j pc hj
      rcases eq_or_ne j i with hij | hij
      · subst hij
        rw [List.get?_set_eq_of_lt _ (get?_some_lt ht)] at hj
        cases hj
        trivial
      · rw [List.get?_set_ne _ _ (Ne.symm hij)] at hj
        exact threadOK_of_unchanged rfl rfl j pc (hth j pc hj)
  | lockAcquire i ht hl =>
      refine ⟨by simpa using hlen, hcd, ?_⟩
      intro j pc hj
      rcases eq_or_ne j i with hij | hij
      · subst hij
        rw [List.get?_set_eq_of_lt _ (get?_some_lt ht)] at hj
        cases hj
        rfl
      · rw [List.get?_set_ne _ _ (Ne.symm hij)] at hj
        have hold := hth j pc hj
        cases pc with
        | start => trivial
        | waitLock => trivial
        | recheck => rw [threadOK, hl] at hold; cases hold
        | connecting => rw [threadOK, hl] at hold; cases hold.1
        | unlocking v => rw [threadOK, hl] at hold; cases hold.1
        | done v => exact hold
  | recheckHit i v ht hl hc =>
      refine ⟨by simpa using hlen, hcd, ?_⟩
      intro j pc hj
      rcases eq_or_ne j i with hij | hij
      · subst hij
        rw [List.get?_set_eq_of_lt _ (get?_some_lt ht)] at hj
        cases hj
        exact ⟨hl, hc⟩
      · rw [List.get?_set_ne _ _ (Ne.symm hij)] at hj
        exact threadOK_of_unchanged rfl rfl j pc (hth j pc hj)
  | recheckMiss i ht hl hc =>
      refine ⟨by simpa using hlen, hcd, ?_⟩
      intro j pc hj
      rcases eq_or_ne j i with hij | hij
      · subst hij
        rw [List.get?_set_eq_of_lt _ (get?_some_lt ht)] at hj
        cases hj
        exact ⟨hl, hc⟩
      · rw [List.get?_set_ne _ _ (Ne.symm hij)] at hj
        exact threadOK_of_unchanged rfl rfl j pc (hth j pc hj)
  | connectDone i ht hl =>
      have hcl : s.client = none := (hth i ThreadPC.connecting ht).2
      have hd0 : s.dials = 0 := by
        rcases hcd with ⟨_, hd⟩ | ⟨hc0, _⟩
        · exact hd
        · rw [hcl] at hc0; cases hc0
      refine ⟨by simpa using hlen, Or.inr ⟨by simp [hd0], by simp [hd0]⟩, ?_⟩
      intro j pc hj
      rcases eq_or_ne j i with hij | hij
      · subst hij
        rw [List.get?_set_eq_of_lt _ (get?_some_lt ht)] at hj
        cases hj
        exact ⟨hl, rfl⟩
      · rw [List.get?_set_ne _ _ (Ne.symm hij)] at hj
        have hold := hth j pc hj
        cases pc with
        | start => trivial
        | waitLock => trivial
        | recheck =>
            rw [threadOK, hl] at hold
            cases hold
            exact absurd rfl hij
        | connecting =>
            have := hold.1
            rw [hl] at this
            cases this
            exact absurd rfl hij
        | unlocking v =>
            have := hold.1
            rw [hl] at this
            cases this
            exact absurd rfl hij
        | done v =>
            rw [threadOK, hcl] at hold
            cases hold
  | unlockDone i v ht hl =>
      refine ⟨by simpa using hlen, hcd, ?_⟩
      intro j pc hj
      rcases eq_or_ne j i with hij | hij
      · subst hij
        rw [List.get?_set_eq_of_lt _ (get?_some_lt ht)] at hj
        cases hj
        exact (hth j (ThreadPC.unlocking v) ht).2
      · rw [List.get?_set_ne _ _ (Ne.symm hij)] at hj
        have hold := hth j pc hj
        cases pc with
        | start => trivial
        | waitLock => trivial
        | recheck =>
            rw [threadOK, hl] at hold
            cases hold
            exact absurd rfl hij
        | connecting =>
            have := hold.1
            rw [hl] at this
            cases this
            exact absurd rfl hij
        | unlocking w =>
            have := hold.1
            rw [hl] at this
            cases this
            exact absurd rfl hij
        | done w => exact hold

/-- The acquisition invariant holds initially. -/
theorem acquireInv_init (n : Nat) : AcquireInv n (initMulti n) := by
  refine ⟨by simp [initMulti], Or.inl ⟨rfl, rfl⟩, ?_⟩
  intro j pc hj
  simp only [initMulti] at hj
  have : pc = ThreadPC.start := by
    rcases List.get?_eq_some.mp hj with ⟨h, hget⟩
    simpa using hget.symm
  subst this
  trivial

/-- The acquisition invariant holds in every reachable state. -/
theorem acquireInv_reachable {n : Nat} {s : MultiState}
    (hr : Relation.ReflTransGen AcquireStep (initMulti n) s) :
    AcquireInv n s := by
  induction hr with
  | refl => exact acquireInv_init n
  | tail _ hstep ih => exact acquireInv_step ih hstep

/-- C1: for every set of N concurrent relay requests issued while no shared
transport exists (every interleaving of the acquisition protocol from the
initial state with N callers), at most one dial-and-handshake sequence has
been performed at any time — so at no time do two live transports exist
for the component — and once all N callers have completed, exactly one
dial-and-handshake sequence was performed and every caller acquired that
single resulting transport (transport 0). -/
theorem concurrent_acquire_single_transport (n : Nat) (hn : 0 < n)
    (s : MultiState)
    (hr : Relation.ReflTransGen AcquireStep (initMulti n) s) :
    s.dials ≤ 1 ∧
      (s.threads.all pcIsDone = true →
        s.dials = 1 ∧
          s.threads.all (fun pc => decide (pc = ThreadPC.done 0)) = true) := by
  obtain ⟨hlen, hcd, hth⟩ := acquireInv_reachable hr
  constructor
  · rcases hcd with ⟨_, hd⟩ | ⟨_, hd⟩ <;> simp [hd]
  · intro hall
    have hclient : s.client = some 0 ∧ s.dials = 1 := by
      have h0 : 0 < s.threads.length := by rw [hlen]; exact hn
      obtain ⟨pc0, hpc0⟩ : ∃ pc0, s.threads.get? 0 = some pc0 :=
        ⟨_, List.get?_eq_get h0⟩
      have hdone : pcIsDone pc0 = true :=
        List.all_eq_true.mp hall pc0 (List.get?_mem hpc0)
      cases pc0 with
      | done v =>
          have hok := hth 0 (ThreadPC.done v) hpc0
          rw [threadOK] at hok
          rcases hcd with ⟨hc, _⟩ | ⟨hc, hd⟩
          · rw [hc] at hok; cases hok
          · rw [hc] at hok; cases hok; exact ⟨hc, hd⟩
      | start => simp [pcIsDone] at hdone
      | waitLock => simp [pcIsDone] at hdone
      | recheck => simp [pcIsDone] at hdone
      | connecting => simp [pcIsDone] at hdone
      | unlocking v => simp [pcIsDone] at hdone
    refine ⟨hclient.2, ?_⟩
    rw [List.all_eq_true]
    intro pc hmem
    obtain ⟨i, hi⟩ := List.get?_of_mem hmem
    have hok := hth i pc hi
    have hdone := List.all_eq_true.mp hall pc hmem
    cases pc with
    | done v =>
        rw [threadOK, hclient.1] at hok
        cases hok
        simp
    | start => simp [pcIsDone] at hdone
    | waitLock => simp [pcIsDone] at hdone
    | recheck => simp [pcIsDone] at hdone
    | connecting => simp [pcIsDone] at hdone
    | unlocking v => simp [pcIsDone] at hdone

/-- Witness for C1: a complete interleaving with one caller — fast-path
miss, lock, re-check miss, dial-and-handshake, unlock — reaches the state
where the caller is done, and the theorem applies to it. -/
theorem concurrent_acquire_single_transport_witness :
    0 < 1 ∧
      (⟨none, some 0, 1, [ThreadPC.done 0]⟩ : MultiState).dials = 1 ∧
      ([ThreadPC.done 0].all (fun pc => decide (pc = ThreadPC.done 0))
        = true) := by
  have hr : Relation.ReflTransGen AcquireStep (initMulti 1)
      (⟨none, some 0, 1, [ThreadPC.done 0]⟩ : MultiState) :=
    Relation.ReflTransGen.head
      (AcquireStep.fastPathMiss (initMulti 1) 0 rfl rfl)
      (Relation.ReflTransGen.head
        (AcquireStep.lockAcquire _ 0 rfl rfl)
        (Relation.ReflTransGen.head
          (AcquireStep.recheckMiss _ 0 rfl rfl rfl)
          (Relation.ReflTransGen.head
            (AcquireStep.connectDone _ 0 rfl rfl)
            (Relation.ReflTransGen.head
              (AcquireStep.unlockDone _ 0 0 rfl rfl)
              Relation.ReflTransGen.refl))))
  have h := concurrent_acquire_single_transport 1 (by decide) _ hr
  exact ⟨by decide, h.2 (by decide)⟩

/-! ### Host-key verification: claims C5 and C6 -/

/-- The strict callback accepts exactly the keys whose canonical encoding
matches an allow-listed one. -/
theorem strictHostKeyCallback_none_iff (keys : List SSHPublicKey)
    (key : SSHPublicKey) :
    strictHostKeyCallback keys key = none ↔
      ∃ pk ∈ keys, key.marshal = pk.marshal := by
  induction keys with
  | nil => simp [strictHostKeyCallback]
  | cons pk rest ih =>
      by_cases h : key.marshal = pk.marshal
      · simp [strictHostKeyCallback, h]
      · simp only [strictHostKeyCallback, if_neg h, ih]
        constructor
        · rintro ⟨q, hq, hm⟩
          exact ⟨q, List.mem_cons_of_mem pk hq, hm⟩
        · rintro ⟨q, hq, hm⟩
          rcases List.mem_cons.mp hq with rfl | hq
          · exact absurd hm h
          · exact ⟨q, hq, hm⟩

/-- On an all-mismatch allow-list the strict callback returns the mismatch
error built from the presented key. -/
theorem strictHostKeyCallback_mismatch (keys : List SSHPublicKey)
    (key : SSHPublicKey)
    (h : ∀ pk ∈ keys, key.marshal ≠ pk.marshal) :
    strictHostKeyCallback keys key =
      some (GoErr.plain (hostKeyMismatchMsg key)) := by
  induction keys with
  | nil => rfl
  | cons pk rest ih =>
      show (if key.marshal = pk.marshal then none
            else strictHostKeyCallback rest key) = _
      rw [if_neg (h pk (List.mem_cons_self pk rest))]
      exact ih fun q hq => h q (List.mem_cons_of_mem pk hq)

/-- C5: for every non-empty allow-list, the strict host-verification
predicate accepts a presented key if and only if its canonical
(marshalled) encoding is byte-for-byte equal to some allow-listed key's
canonical encoding; on no match it returns the host-key-mismatch error
that names the presented key's type and its base64 encoding. -/
theorem hostkey_allowlist_match_iff (keys : List SSHPublicKey)
    (hne : keys ≠ []) (key : SSHPublicKey) :
    ((runHostKeyCallback (HostKeyMode.strict keys) key).1 = none ↔
        ∃ pk ∈ keys, key.marshal = pk.marshal)
    ∧ ((∀ pk ∈ keys, key.marshal ≠ pk.marshal) →
        (runHostKeyCallback (HostKeyMode.strict keys) key).1 =
          some (GoErr.plain ("ssh: host key mismatch, server send "
            ++ key.keyType ++ " " ++ base64StdEncode key.marshal))) := by
  refine ⟨strictHostKeyCallback_none_iff keys key, ?_⟩
  intro h
  exact strictHostKeyCallback_mismatch keys key h

/-- Witness for C5 at a concrete allow-list: the matching key is accepted
and the mismatching key is rejected with the mismatch error. -/
theorem hostkey_allowlist_match_iff_witness :
    ((⟨"ssh-rsa", [0, 1, 2]⟩ : SSHPublicKey) :: []) ≠ []
    ∧ (runHostKeyCallback
        (HostKeyMode.strict [⟨"ssh-rsa", [0, 1, 2]⟩])
        ⟨"ssh-ed25519", [0, 1, 2]⟩).1 = none := by
  constructor
  · decide
  · exact (hostkey_allowlist_match_iff [⟨"ssh-rsa", [0, 1, 2]⟩]
      (by decide) ⟨"ssh-ed25519", [0, 1, 2]⟩).1.mpr
      ⟨⟨"ssh-rsa", [0, 1, 2]⟩, by decide, by decide⟩

/-- C6: when Init is given an empty allow-list it installs the permissive
host-verification predicate, and that predicate accepts every presented
key (returns no error) while emitting exactly one informational record of
the presented key's type and encoding. -/
theorem hostkey_empty_allowlist_accepts (lib : SSHLib) (config : Config)
    (pol : Nat → SessionTimeouts) (c : Client) (key : SSHPublicKey)
    (hinit : Client.Init lib config pol = Except.ok c)
    (hempty : config.publicKey = "") :
    c.hostKeyMode = HostKeyMode.permissive
    ∧ (runHostKeyCallback HostKeyMode.permissive key).1 = none
    ∧ (runHostKeyCallback HostKeyMode.permissive key).2 =
        ["ssh: server send " ++ key.keyType ++ " "
          ++ base64StdEncode key.marshal] := by
  refine ⟨?_, rfl, rfl⟩
  unfold Client.Init at hinit
  cases hauth : initAuthMethods lib config with
  | error e => rw [hauth] at hinit; cases hinit
  | ok auth =>
      rw [hauth] at hinit
      have hkeys : initHostKeys lib config = Except.ok [] := by
        simp [initHostKeys, hempty]
      rw [hkeys] at hinit
      cases hinit
      rfl

/-- Witness for C6: a concrete Init with empty allow-list, and a concrete
presented key that is accepted and recorded. -/
theorem hostkey_empty_allowlist_accepts_witness :
    (Client.Init ⟨fun _ => none, fun _ _ => none, fun _ => none⟩
        ⟨"", "gw", 22, "", "", "", 0⟩ (fun _ => ⟨300, 5, 2⟩)).map
        Client.hostKeyMode = Except.ok HostKeyMode.permissive
    ∧ (runHostKeyCallback HostKeyMode.permissive
        ⟨"ssh-rsa", [77]⟩).1 = none := by
  have h := hostkey_empty_allowlist_accepts
    ⟨fun _ => none, fun _ _ => none, fun _ => none⟩
    ⟨"", "gw", 22, "", "", "", 0⟩ (fun _ => ⟨300, 5, 2⟩)
    { sessionPolicy := ⟨300, 5, 2⟩, serverAddress := "gw", serverPort := 22
      username := "root", auth := [], hostKeyMode := HostKeyMode.permissive
      client := none, locked := false }
    ⟨"ssh-rsa", [77]⟩ rfl rfl
  exact ⟨rfl, h.2.1⟩

/-! ### Authentication-material selection: claim C7 -/

/-- A configuration whose allow-listed public keys all parse (in
particular, one that gives none). -/
def AllowListParses (lib : SSHLib) (config : Config) : Prop :=
  config.publicKey = "" ∨
    ∃ ks, parsePublicKeyLines lib (splitLines config.publicKey)
      = Except.ok ks

/-- Under a parseable allow-list, the allow-list stage of Init succeeds. -/
theorem initHostKeys_ok (lib : SSHLib) (config : Config)
    (hpk : AllowListParses lib config) :
    ∃ ks, initHostKeys lib config = Except.ok ks := by
  by_cases h0 : config.publicKey = ""
  · exact ⟨[], by simp [initHostKeys, h0]⟩
  · rcases hpk with h | ⟨ks, h⟩
    · exact absurd h h0
    · exact ⟨ks, by simp [initHostKeys, h0, h]⟩

/-- C7 counterexample: at the concrete configuration with no private key
and no password but one allow-list line that the authorized-key parser
rejects (standing for `ssh.ParseAuthorizedKey` on a malformed line),
initialization fails, so the claim's assertion that with neither
credential present initialization succeeds is false as stated. -/
theorem init_no_credentials_not_always_ok :
    (⟨"", "gw", 22, "", "", "not a key", 0⟩ : Config).privateKey = ""
    ∧ (⟨"", "gw", 22, "", "", "not a key", 0⟩ : Config).password = ""
    ∧ Client.Init ⟨fun _ => none, fun _ _ => none, fun _ => none⟩
        ⟨"", "gw", 22, "", "", "not a key", 0⟩ (fun _ => ⟨300, 5, 2⟩)
      = Except.error (GoErr.plain "parse public key") := by
  refine ⟨rfl, rfl, ?_⟩
  rfl

/-- When both stages of Init succeed, Init returns the assembled client
state. -/
theorem init_ok_of (lib : SSHLib) (config : Config)
    (pol : Nat → SessionTimeouts) (auth : List AuthMethod)
    (ks : List SSHPublicKey)
    (hsel : initAuthMethods lib config = Except.ok auth)
    (hks : initHostKeys lib config = Except.ok ks) :
    Client.Init lib config pol = Except.ok
      { sessionPolicy := pol config.userLevel
        serverAddress := config.address
        serverPort := config.port
        username := if config.user = "" then "root" else config.user
        auth := auth
        hostKeyMode := if ks.isEmpty then HostKeyMode.permissive
          else HostKeyMode.strict ks
        client := none
        locked := false } := by
  simp [Client.Init, hsel, hks]

/-- C7 (amended): for every configuration whose allow-listed public keys
all parse (or are absent): if a private key is present it is parsed — with
the password value as passphrase exactly when a password is also present —
and a parse failure makes initialization fail with the config error; if no
private key but a password is present, the method set is password
authentication only; if neither is present, the method set is empty yet
initialization succeeds. -/
theorem init_auth_selection (lib : SSHLib) (config : Config)
    (pol : Nat → SessionTimeouts) (hpk : AllowListParses lib config) :
    (config.privateKey ≠ "" → config.password = "" →
      (lib.parsePrivateKey config.privateKey = none →
        Client.Init lib config pol =
          Except.error (GoErr.plain "parse private key"))
      ∧ ∀ signer, lib.parsePrivateKey config.privateKey = some signer →
          ∃ c, Client.Init lib config pol = Except.ok c
            ∧ c.auth = [AuthMethod.publicKeys signer])
    ∧ (config.privateKey ≠ "" → config.password ≠ "" →
      (lib.parsePrivateKeyWithPassphrase config.privateKey config.password
          = none →
        Client.Init lib config pol =
          Except.error (GoErr.plain "parse private key"))
      ∧ ∀ signer,
          lib.parsePrivateKeyWithPassphrase config.privateKey
            config.password = some signer →
          ∃ c, Client.Init lib config pol = Except.ok c
            ∧ c.auth = [AuthMethod.publicKeys signer])
    ∧ (config.privateKey = "" → config.password ≠ "" →
        ∃ c, Client.Init lib config pol = Except.ok c
          ∧ c.auth = [AuthMethod.password config.password])
    ∧ (config.privateKey = "" → config.password = "" →
        ∃ c, Client.Init lib config pol = Except.ok c
          ∧ c.auth = []) := by
  obtain ⟨ks, hks⟩ := initHostKeys_ok lib config hpk
  refine ⟨?_, ?_, ?_, ?_⟩
  · intro hkey hpw
    have hsel : initAuthMethods lib config =
        match lib.parsePrivateKey config.privateKey with
        | none => Except.error (GoErr.plain "parse private key")
        | some signer => Except.ok [AuthMethod.publicKeys signer] := by
      simp [initAuthMethods, hkey, hpw]
    constructor
    · intro hparse
      rw [hparse] at hsel
      simp [Client.Init, hsel]
    · intro signer hparse
      rw [hparse] at hsel
      exact ⟨_, init_ok_of lib config pol _ ks hsel hks, rfl⟩
  · intro hkey hpw
    have hsel : initAuthMethods lib config =
        match lib.parsePrivateKeyWithPassphrase config.privateKey
            config.password with
        | none => Except.error (GoErr.plain "parse private key")
        | some signer => Except.ok [AuthMethod.publicKeys signer] := by
      simp [initAuthMethods, hkey, hpw]
    constructor
    · intro hparse
      rw [hparse] at hsel
      simp [Client.Init, hsel]
    · intro signer hparse
      rw [hparse] at hsel
      exact ⟨_, init_ok_of lib config pol _ ks hsel hks, rfl⟩
  · intro hkey hpw
    have hsel : initAuthMethods lib config =
        Except.ok [AuthMethod.password config.password] := by
      simp [initAuthMethods, hkey, hpw]
    exact ⟨_, init_ok_of lib config pol _ ks hsel hks, rfl⟩
  · intro hkey hpw
    have hsel : initAuthMethods lib config = Except.ok [] := by
      simp [initAuthMethods, hkey, hpw]
    exact ⟨_, init_ok_of lib config pol _ ks hsel hks, rfl⟩

/-- Witness for C7 (amended) at a concrete configuration: password-only
configuration yields the password method set. -/
theorem init_auth_selection_witness :
    ∃ c, Client.Init ⟨fun _ => some 7, fun _ _ => some 7, fun _ => none⟩
        ⟨"alice", "gw", 22, "", "secret", "", 0⟩ (fun _ => ⟨300, 5, 2⟩)
      = Except.ok c ∧ c.auth = [AuthMethod.password "secret"] := by
  have h := init_auth_selection
    ⟨fun _ => some 7, fun _ _ => some 7, fun _ => none⟩
    ⟨"alice", "gw", 22, "", "secret", "", 0⟩ (fun _ => ⟨300, 5, 2⟩)
    (Or.inl rfl)
  exact h.2.2.1 rfl (by decide)

/-! ### Concrete fixtures shared by witnesses -/

/-- A freshly initialized client with default policy values and no
transport. -/
def sampleClient : Client :=
  ⟨⟨300, 5, 2⟩, "gw", 22, "root", [], HostKeyMode.permissive, none, false⟩

/-- The same client with a live shared transport. -/
def sampleClientConnected : Client := { sampleClient with client := some 0 }

/-- A valid TCP destination. -/
def tcpDest : Destination := ⟨Network.tcp, "example.com", 80⟩

/-- A request environment with a valid TCP target, a succeeding dialer and
handshake, a working channel, and both copies ending cleanly. -/
def tcpEnv : ProcessEnv :=
  ⟨some ⟨tcpDest⟩, fun _ => true, true, true, none, none⟩

/-- The same environment with a dialer that always fails. -/
def failDialEnv : ProcessEnv :=
  ⟨some ⟨tcpDest⟩, fun _ => false, true, true, none, none⟩

/-- A request environment whose target network is UDP. -/
def udpEnv : ProcessEnv :=
  ⟨some ⟨⟨Network.udp, "example.com", 80⟩⟩, fun _ => true, true, true,
    none, none⟩

/-- A request environment carrying no outbound session. -/
def noTargetEnv : ProcessEnv :=
  ⟨none, fun _ => true, true, true, none, none⟩

/-! ### Dial retry with backoff: claim C2 -/

/-- C2: transport establishment retries the raw dial with exponential
backoff making exactly 3 total attempts with delays 100ms then 200ms
(base 100ms, doubling each retry): a dialer that fails twice then succeeds
establishes on the third attempt (given the handshake succeeds), and a
dialer that always fails makes establishment fail with the connect error
after exactly 3 attempts. -/
theorem connect_retry_exponential_backoff (c : Client) (dial : Nat → Bool)
    (hs : Bool) :
    (dial 0 = false → dial 1 = false → dial 2 = true →
      (Client.connect c dial hs).attempts = 3
      ∧ (Client.connect c dial hs).delays = [100, 200]
      ∧ (hs = true → (Client.connect c dial hs).result = Except.ok 0))
    ∧ ((∀ i, dial i = false) →
      (Client.connect c dial hs).attempts = 3
      ∧ (Client.connect c dial hs).delays = [100, 200]
      ∧ (Client.connect c dial hs).result =
          Except.error (GoErr.plain "failed to connect to destination")) := by
  constructor
  · intro h0 h1 h2
    have hr : ExponentialBackoff.On 2 100 dial = ⟨3, [100, 200], true⟩ := by
      simp [ExponentialBackoff.On, retryRun, h0, h1, h2]
    refine ⟨?_, ?_, ?_⟩
    · cases hs <;> simp [Client.connect, hr]
    · cases hs <;> simp [Client.connect, hr]
    · intro hhs
      subst hhs
      simp [Client.connect, hr]
  · intro h
    have hr : ExponentialBackoff.On 2 100 dial = ⟨3, [100, 200], false⟩ := by
      simp [ExponentialBackoff.On, retryRun, h 0, h 1, h 2]
    refine ⟨?_, ?_, ?_⟩ <;> simp [Client.connect, hr]

/-- Witness for C2 at concrete dialers: one that succeeds from the third
attempt on, and one that never succeeds. -/
theorem connect_retry_exponential_backoff_witness :
    (Client.connect sampleClient (fun i => decide (2 ≤ i)) true).attempts
        = 3
    ∧ (Client.connect sampleClient (fun i => decide (2 ≤ i)) true).result
        = Except.ok 0
    ∧ (Client.connect sampleClient (fun _ => false) true).attempts = 3
    ∧ (Client.connect sampleClient (fun _ => false) true).result =
        Except.error (GoErr.plain "failed to connect to destination") := by
  have h1 := (connect_retry_exponential_backoff sampleClient
    (fun i => decide (2 ≤ i)) true).1 (by decide) (by decide) (by decide)
  have h2 := (connect_retry_exponential_backoff sampleClient
    (fun _ => false) true).2 (fun i => rfl)
  exact ⟨h1.1, h1.2.2 rfl, h2.1, h2.2.2⟩

/-! ### Request validation: claims C8 and C10 -/

/-- C8: a relay request whose destination is valid but not stream-oriented
(not TCP) fails immediately with the unsupported-transport error, with an
empty effect trace (no transport acquisition, dial or channel-open) and
the component state untouched. -/
theorem process_rejects_non_tcp (c : Client) (env : ProcessEnv)
    (ob : OutboundSession) (hob : env.outbound = some ob)
    (hvalid : ob.target.IsValid = true)
    (hnet : ob.target.network ≠ Network.tcp) :
    Client.Process c env =
      ⟨ProcOutcome.ret
        (some (GoErr.plain "only TCP is supported in SSH proxy")), c, []⟩ := by
  simp [Client.Process, hob, hvalid, hnet]

/-- Witness for C8: the concrete UDP request is rejected with the
unsupported error, no effects, state unchanged. -/
theorem process_rejects_non_tcp_witness :
    Client.Process sampleClient udpEnv =
      ⟨ProcOutcome.ret
        (some (GoErr.plain "only TCP is supported in SSH proxy")),
        sampleClient, []⟩ :=
  process_rejects_non_tcp sampleClient udpEnv
    ⟨⟨Network.udp, "example.com", 80⟩⟩ rfl (by decide) (by decide)

/-- C10: a Process call whose context carries no outbound session, or
whose outbound target is invalid, returns the target-not-specified error
immediately — before the network check, transport acquisition or any I/O:
the effect trace is empty and the component state is untouched. -/
theorem process_requires_target (c : Client) (env : ProcessEnv)
    (h : env.outbound = none ∨
      ∃ ob, env.outbound = some ob ∧ ob.target.IsValid = false) :
    Client.Process c env =
      ⟨ProcOutcome.ret (some (GoErr.plain "target not specified")),
        c, []⟩ := by
  rcases h with h | ⟨ob, hob, hv⟩
  · simp [Client.Process, h]
  · simp [Client.Process, hob, hv]

/-- Witness for C10: the concrete request with no outbound session fails
with the target-not-specified error and no effects. -/
theorem process_requires_target_witness :
    Client.Process sampleClient noTargetEnv =
      ⟨ProcOutcome.ret (some (GoErr.plain "target not specified")),
        sampleClient, []⟩ :=
  process_requires_target sampleClient noTargetEnv (Or.inl rfl)

/-! ### Relay timer escalation and result: claim C9 -/

/-- C9: the relay session's idle timer is seeded with the connection-idle
timeout; completion of the downlink copy task rearms it to the
downlink-only timeout and completion of the uplink copy task to the
uplink-only timeout, so a half-closed session is cancelled once idle for
the corresponding one-direction timeout; and for a request that reaches
the relay phase, both copies ending cleanly makes the call return
success, while either copy reporting an error makes it return that error
wrapped as the connection-ends error. -/
theorem relay_idle_timer_and_result (c : Client) (env : ProcessEnv)
    (ob : OutboundSession) (sc : Nat)
    (hob : env.outbound = some ob)
    (hnet : ob.target.network = Network.tcp)
    (hclient : c.client = some sc)
    (hchan : env.channelOpenOk = true) :
    (CancelAfterInactivity c.sessionPolicy.connectionIdle).timeout
        = c.sessionPolicy.connectionIdle
    ∧ (∀ timer res,
        (downlinkTask c.sessionPolicy timer res).2
            = ⟨c.sessionPolicy.downlinkOnly⟩
        ∧ ∀ idle, c.sessionPolicy.downlinkOnly ≤ idle →
            (downlinkTask c.sessionPolicy timer res).2.cancelsWhenIdleFor
              idle)
    ∧ (∀ timer res,
        (uplinkTask c.sessionPolicy timer res).2
            = ⟨c.sessionPolicy.uplinkOnly⟩
        ∧ ∀ idle, c.sessionPolicy.uplinkOnly ≤ idle →
            (uplinkTask c.sessionPolicy timer res).2.cancelsWhenIdleFor
              idle)
    ∧ (env.downlinkErr = none → env.uplinkErr = none →
        (Client.Process c env).outcome = ProcOutcome.ret none)
    ∧ (∀ e, env.downlinkErr = some e →
        (Client.Process c env).outcome =
          ProcOutcome.ret (some (GoErr.wrap "connection ends" e)))
    ∧ (∀ e, env.downlinkErr = none → env.uplinkErr = some e →
        (Client.Process c env).outcome =
          ProcOutcome.ret (some (GoErr.wrap "connection ends" e))) := by
  have hvalid : ob.target.IsValid = true := by
    simp [Destination.IsValid, hnet]
  refine ⟨rfl, ?_, ?_, ?_, ?_, ?_⟩
  · intro timer res
    exact ⟨rfl, fun idle h => h⟩
  · intro timer res
    exact ⟨rfl, fun idle h => h⟩
  · intro hd hu
    simp [Client.Process, hob, hvalid, hnet, hclient, Client.relay, hchan,
      downlinkTask, uplinkTask, taskRunResult, hd, hu]
  · intro e hd
    simp [Client.Process, hob, hvalid, hnet, hclient, Client.relay, hchan,
      downlinkTask, uplinkTask, taskRunResult, hd]
  · intro e hd hu
    simp [Client.Process, hob, hvalid, hnet, hclient, Client.relay, hchan,
      downlinkTask, uplinkTask, taskRunResult, hd, hu]

/-- Witness for C9 at the concrete connected client: both copies clean
gives a successful return, and an erroring downlink gives the wrapped
connection-ends error. -/
theorem relay_idle_timer_and_result_witness :
    (Client.Process sampleClientConnected tcpEnv).outcome
        = ProcOutcome.ret none
    ∧ (Client.Process sampleClientConnected
          { tcpEnv with downlinkErr := some (GoErr.plain "broken pipe") }
        ).outcome
        = ProcOutcome.ret (some (GoErr.wrap "connection ends"
            (GoErr.plain "broken pipe"))) := by
  have h1 := relay_idle_timer_and_result sampleClientConnected tcpEnv
    ⟨tcpDest⟩ 0 rfl rfl rfl rfl
  have h2 := relay_idle_timer_and_result sampleClientConnected
    { tcpEnv with downlinkErr := some (GoErr.plain "broken pipe") }
    ⟨tcpDest⟩ 0 rfl rfl rfl rfl
  exact ⟨h1.2.2.2.1 rfl rfl,
    h2.2.2.2.2.1 (GoErr.plain "broken pipe") rfl⟩

/-! ### Establishment failure handling: claim C3 -/

/-- C3 (code bug): at the concrete failing input — a Process call with a
valid TCP destination on a component with no transport, using a dialer
that always fails — the call returns the connect error and the shared
reference remains absent as specified, but the component mutex is left
held (the return at client.go line 126 skips the Unlock at line 139), so
a second identical Process call blocks forever on the lock instead of
independently attempting establishment again. -/
theorem process_connect_failure_leaves_mutex_locked :
    (Client.Process sampleClient failDialEnv).outcome
        = ProcOutcome.ret
            (some (GoErr.plain "failed to connect to destination"))
    ∧ (Client.Process sampleClient failDialEnv).state.client = none
    ∧ (Client.Process sampleClient failDialEnv).state.locked = true
    ∧ (Client.Process (Client.Process sampleClient failDialEnv).state
          failDialEnv).outcome
        = ProcOutcome.blockedOnLock := by
  exact ⟨rfl, rfl, rfl, rfl⟩

/-! ### Who clears the shared reference: claim C4 -/

/-- C4 counterexample: at the concrete state holding a live transport,
explicit Close leaves the shared reference untouched (still non-nil) and
performs neither a reference write nor any lock acquisition, refuting the
claim that Close is a writer that transitions the reference to nil while
holding the lock. -/
theorem close_does_not_clear_reference :
    sampleClientConnected.client = some 0
    ∧ (Client.Close sampleClientConnected none).2.1.client = some 0
    ∧ (Client.Close sampleClientConnected none).2.2
        = [MicroStep.closeTransport 0]
    ∧ MicroStep.setClientNone ∉ (Client.Close sampleClientConnected none).2.2
    ∧ MicroStep.lockAcquire ∉ (Client.Close sampleClientConnected none).2.2 := by
  exact ⟨rfl, rfl, rfl, by decide, by decide⟩

/-- C4 (amended): the shared transport reference is transitioned from
non-nil to nil only by the background watcher, and the watcher performs
that transition while holding the lock that guards the reference; explicit
Close never writes the reference and takes no lock (it closes the
underlying transport, upon which the watcher clears the reference under
the lock), and a Process call never clears a non-nil reference either. -/
theorem watcher_sole_reference_clearer (c : Client) (env : ProcessEnv)
    (closeErr : Option GoErr) :
    (∀ c2 steps, clientWatcher c = some (c2, steps) →
        c2.client = none
        ∧ steps = [MicroStep.lockAcquire, MicroStep.setClientNone,
            MicroStep.lockRelease])
    ∧ (Client.Close c closeErr).2.1 = c
    ∧ MicroStep.setClientNone ∉ (Client.Close c closeErr).2.2
    ∧ MicroStep.lockAcquire ∉ (Client.Close c closeErr).2.2
    ∧ (∀ sc, c.client = some sc →
        (Client.Process c env).state = c) := by
  refine ⟨?_, ?_, ?_, ?_, ?_⟩
  · intro c2 steps h
    unfold clientWatcher at h
    by_cases hl : c.locked
    · simp [hl] at h
    · simp [hl] at h
      exact ⟨by rw [← h.1], h.2.symm⟩
  · unfold Client.Close
    cases c.client <;> rfl
  · unfold Client.Close
    cases hc : c.client <;> simp
  · unfold Client.Close
    cases hc : c.client <;> simp
  · intro sc hsc
    unfold Client.Process
    cases hob : env.outbound with
    | none => rfl
    | some ob =>
        by_cases hv : ob.target.IsValid = false
        · simp [hv]
        · simp only [eq_self_iff_true, hv, if_false]
          by_cases hn : ob.target.network = Network.tcp
          · rw [hsc]
            unfold Client.relay
            by_cases hch : env.channelOpenOk = false
            · simp [hn, hch]
            · simp only [hn, hch]
              simp
              cases taskRunResult
                (downlinkTask c.sessionPolicy
                  (CancelAfterInactivity c.sessionPolicy.connectionIdle)
                  env.downlinkErr).1
                (uplinkTask c.sessionPolicy
                  (CancelAfterInactivity c.sessionPolicy.connectionIdle)
                  env.uplinkErr).1 <;> simp
          · simp [hn]

/-- Witness for C4 (amended) at concrete states: the watcher clears the
reference under the lock, Close leaves the connected state untouched, and
a relaying Process call keeps the reference. -/
theorem watcher_sole_reference_clearer_witness :
    ((clientWatcher sampleClientConnected).map fun r => r.1.client)
        = some none
    ∧ (Client.Close sampleClientConnected none).2.1
        = sampleClientConnected
    ∧ (Client.Process sampleClientConnected tcpEnv).state
        = sampleClientConnected := by
  have h := watcher_sole_reference_clearer sampleClientConnected tcpEnv
    none
  refine ⟨?_, h.2.1, h.2.2.2.2 0 rfl⟩
  have hw := h.1 { sampleClientConnected with client := none }
    [MicroStep.lockAcquire, MicroStep.setClientNone,
      MicroStep.lockRelease] rfl
  simp [clientWatcher, sampleClientConnected, sampleClient, hw.1]

end SSHProxy
